import Mathlib

/-!
Verification of the tick-driven side-scroller engine in src/src/state.ts
(the complete revision of the file: the state type with started flag,
nextPipeId counter and ghost overlay, its stepReducer, its flap reducer,
its per-run reset and ghost-playback reducers, and the CSV schedule
parser parsePipes).

Numeric values of the game state are modelled as exact rationals: the
source manipulates ordinary JavaScript numbers and every claim under
study is about the arithmetic structure of the update rules, not about
floating-point rounding.  The CSV parser is modelled separately over a
JavaScript-number domain that carries NaN and the infinities, because
its behaviour on non-numeric cells is exactly what the parsing claims
are about.
-/

namespace Flappy

/-! ## Data model (state.ts lines 110-164) -/

/-- A live obstacle: `type Pipe = { id; x; gapY; gapH }`. -/
structure Pipe where
  id : Nat
  x : Rat
  gapY : Rat
  gapH : Rat
deriving DecidableEq

/-- A scheduled obstacle definition: `type PipeDef = { time; gapYpx; gapHpx }`
(the run-model copy, with exact rational fields; the parser's NaN-aware
output type appears further down). -/
structure PipeDef where
  time : Rat
  gapYpx : Rat
  gapHpx : Rat
deriving DecidableEq

/-- The game state, field for field the `State` type of state.ts. -/
structure State where
  gameEnd : Bool
  birdY : Rat
  birdVy : Rat
  pipes : List Pipe
  score : Int
  lives : Int
  elapsed : Rat
  remainingDefs : List PipeDef
  scoredIds : List Nat
  nextPipeId : Nat
  hurtCooldown : Rat
  flapCooldown : Rat
  started : Bool
  ghostYs : List Rat
deriving DecidableEq

/-! ## Constants (state.ts lines 85-102 and 392-394) -/

def CANVAS_WIDTH : Rat := 600
def CANVAS_HEIGHT : Rat := 400
def BIRB_WIDTH : Rat := 42
def BIRB_HEIGHT : Rat := 30
def GRAVITY : Rat := 2000
def FLAP_VELOCITY : Rat := -400
def PIPE_WIDTH : Rat := 50
def PIPE_SPEED : Rat := 250

/-- `const TOP = 0`. -/
def TOP : Rat := 0

/-- `const GROUND = Viewport.CANVAS_HEIGHT - Birb.HEIGHT - 65` (= 305). -/
def GROUND : Rat := CANVAS_HEIGHT - BIRB_HEIGHT - 65

/-- `const birdX = Viewport.CANVAS_WIDTH * 0.3 - Birb.WIDTH / 2` (= 159). -/
def birdX : Rat := CANVAS_WIDTH * (3 / 10) - BIRB_WIDTH / 2

/-- `initialState` of state.ts lines 142-164. -/
def initialState : State :=
  { gameEnd := false
    birdY := CANVAS_HEIGHT / 2 - BIRB_HEIGHT / 2
    birdVy := 0
    pipes := []
    score := 0
    lives := 3
    elapsed := 0
    remainingDefs := []
    scoredIds := []
    nextPipeId := 1
    hurtCooldown := 0
    flapCooldown := 0
    started := false
    ghostYs := [] }

/-! ## Geometry helpers (state.ts lines 601-641) -/

/-- An axis-aligned box `{ x; y; w; h }`. -/
structure Box where
  x : Rat
  y : Rat
  w : Rat
  h : Rat
deriving DecidableEq

/-- The `overlaps` test of stepReducer:
`a.x < b.x + b.w && a.x + a.w > b.x && a.y < b.y + b.h && a.y + a.h > b.y`. -/
def overlaps (a b : Box) : Bool :=
  decide (a.x < b.x + b.w) && decide (a.x + a.w > b.x) &&
  decide (a.y < b.y + b.h) && decide (a.y + a.h > b.y)

/-- Direction of a pipe hit, the `HitDir` union of stepReducer. -/
inductive HitDir where
  | none
  | top
  | bottom
deriving DecidableEq

/-- The two solid rectangles derived from a pipe: the top rectangle from
y = 0 down to `max 0 (gapY - gapH/2)` and the bottom rectangle from
`min CANVAS_HEIGHT (gapY + gapH/2)` down to the canvas floor. -/
def pipeRects (p : Pipe) : Box × Box :=
  let half := p.gapH / 2
  let topH := max 0 (p.gapY - half)
  let botY := min CANVAS_HEIGHT (p.gapY + half)
  ({ x := p.x, y := 0, w := PIPE_WIDTH, h := topH },
   { x := p.x, y := botY, w := PIPE_WIDTH, h := CANVAS_HEIGHT - botY })

/-- The pipe-collision loop of stepReducer lines 617-641: pipes are
tested in list order, within one pipe the top rectangle before the
bottom rectangle, and the first overlapping rectangle wins. -/
def pipeCollision (birdBox : Box) : List Pipe → HitDir
  | [] => HitDir.none
  | p :: rest =>
    if overlaps birdBox (pipeRects p).1 then HitDir.top
    else if overlaps birdBox (pipeRects p).2 then HitDir.bottom
    else pipeCollision birdBox rest

/-! ## Spawning and movement (state.ts lines 571-584) -/

/-- `due.map((d, i) => ({ id: s.nextPipeId + i, x: CANVAS_WIDTH, gapY, gapH }))`
written as structural recursion over the due list. -/
def spawnPipes (nextId : Nat) : List PipeDef → List Pipe
  | [] => []
  | d :: rest =>
    { id := nextId, x := CANVAS_WIDTH, gapY := d.gapYpx, gapH := d.gapHpx }
      :: spawnPipes (nextId + 1) rest

/-- `p => ({ ...p, x: p.x - PIPE_SPEED * dt })`. -/
def movePipe (dt : Rat) (p : Pipe) : Pipe :=
  { p with x := p.x - PIPE_SPEED * dt }

/-! ## The tick reducer (state.ts lines 552-696)

Each named intermediate value of stepReducer becomes a definition of the
same name, so that the claims can speak about the tick's internal
quantities; `stepReducer` itself assembles exactly the record the source
returns. -/

/-- `const due = ...partition(s.remainingDefs, d => d.time <= elapsed)` (first half). -/
def tickDue (s : State) (dt : Rat) : List PipeDef :=
  (s.remainingDefs.partition (fun d => decide (d.time ≤ s.elapsed + dt))).1

/-- Second half of the partition of `s.remainingDefs`. -/
def tickFuture (s : State) (dt : Rat) : List PipeDef :=
  (s.remainingDefs.partition (fun d => decide (d.time ≤ s.elapsed + dt))).2

/-- The pipes spawned this tick. -/
def tickSpawned (s : State) (dt : Rat) : List Pipe :=
  spawnPipes s.nextPipeId (tickDue s dt)

/-- `const pipes = s.pipes.concat(spawned).map(move).filter(p => p.x + PIPE_WIDTH >= 0)`. -/
def tickPipes (s : State) (dt : Rat) : List Pipe :=
  ((s.pipes ++ tickSpawned s dt).map (movePipe dt)).filter
    (fun p => decide (p.x + PIPE_WIDTH ≥ 0))

/-- `const vy0 = s.birdVy + GRAVITY * dt`. -/
def tickVy0 (s : State) (dt : Rat) : Rat :=
  s.birdVy + GRAVITY * dt

/-- `const y0 = s.birdY + vy0 * dt`. -/
def tickY0 (s : State) (dt : Rat) : Rat :=
  s.birdY + tickVy0 s dt * dt

/-- `const yClamped = y0 >= GROUND ? GROUND : y0 <= TOP ? TOP : y0`. -/
def tickYClamped (s : State) (dt : Rat) : Rat :=
  if tickY0 s dt ≥ GROUND then GROUND
  else if tickY0 s dt ≤ TOP then TOP
  else tickY0 s dt

/-- `const vyClamped = y0 <= TOP || y0 >= GROUND ? 0 : vy0`. -/
def tickVyClamped (s : State) (dt : Rat) : Rat :=
  if tickY0 s dt ≤ TOP ∨ tickY0 s dt ≥ GROUND then 0 else tickVy0 s dt

/-- `const bumpDown = 150 + r * 200`. -/
def bumpDown (r : Rat) : Rat := 150 + r * 200

/-- `const bumpUp = 250 + r * 170`. -/
def bumpUp (r : Rat) : Rat := 250 + r * 170

/-- `const hitTop = yClamped <= TOP`. -/
def tickHitTop (s : State) (dt : Rat) : Bool :=
  decide (tickYClamped s dt ≤ TOP)

/-- `const hitGround = yClamped >= GROUND`. -/
def tickHitGround (s : State) (dt : Rat) : Bool :=
  decide (tickYClamped s dt ≥ GROUND)

/-- `const birdVy1 = hitTop ? bumpDown : hitGround ? -bumpUp : vyClamped`. -/
def tickBirdVy1 (s : State) (dt r : Rat) : Rat :=
  if tickHitTop s dt then bumpDown r
  else if tickHitGround s dt then -bumpUp r
  else tickVyClamped s dt

/-- `const birdY1 = hitGround ? GROUND : yClamped`. -/
def tickBirdY1 (s : State) (dt : Rat) : Rat :=
  if tickHitGround s dt then GROUND else tickYClamped s dt

/-- `const birdBox = { x: birdX, y: birdY1, w: Birb.WIDTH, h: Birb.HEIGHT }`. -/
def tickBirdBox (s : State) (dt : Rat) : Box :=
  { x := birdX, y := tickBirdY1 s dt, w := BIRB_WIDTH, h := BIRB_HEIGHT }

/-- `const pipeHit = ...` — the collision loop over the moved pipes,
run against the clamped bird box. -/
def tickPipeHit (s : State) (dt : Rat) : HitDir :=
  pipeCollision (tickBirdBox s dt) (tickPipes s dt)

/-- `const birdVy2 = pipeHit === "top" ? bumpDown : pipeHit === "bottom" ? -bumpUp : birdVy1`. -/
def tickBirdVy2 (s : State) (dt r : Rat) : Rat :=
  if tickPipeHit s dt = HitDir.top then bumpDown r
  else if tickPipeHit s dt = HitDir.bottom then -bumpUp r
  else tickBirdVy1 s dt r

/-- `const hitThisFrame = hitTop || hitGround || pipeHit !== "none"`. -/
def tickHit (s : State) (dt : Rat) : Bool :=
  tickHitTop s dt || tickHitGround s dt || decide (tickPipeHit s dt ≠ HitDir.none)

/-- `const hurtCooldown = Math.max(0, s.hurtCooldown - dt)` — the tick's
decayed invulnerability timer. -/
def tickHurtCd (s : State) (dt : Rat) : Rat :=
  max 0 (s.hurtCooldown - dt)

/-- `const lives = hitThisFrame && hurtCooldown <= 0 ? Math.max(0, s.lives - 1) : s.lives`. -/
def tickLives (s : State) (dt : Rat) : Int :=
  if tickHit s dt ∧ tickHurtCd s dt ≤ 0 then max 0 (s.lives - 1) else s.lives

/-- `const levelComplete = future.length === 0 && pipes.length === 0`. -/
def tickLevelComplete (s : State) (dt : Rat) : Bool :=
  decide ((tickFuture s dt).length = 0) && decide ((tickPipes s dt).length = 0)

/-- `const gameEnd = lives <= 0 || levelComplete`. -/
def tickGameEnd (s : State) (dt : Rat) : Bool :=
  decide (tickLives s dt ≤ 0) || tickLevelComplete s dt

/-- `const newlyPassed = pipes.filter(p => p.x + PIPE_WIDTH < birdRight && !s.scoredIds.includes(p.id)).map(p => p.id)`
where `birdRight = birdX + Birb.WIDTH`. -/
def newlyPassed (s : State) (dt : Rat) : List Nat :=
  ((tickPipes s dt).filter
    (fun p => decide (p.x + PIPE_WIDTH < birdX + BIRB_WIDTH) &&
              !(s.scoredIds.contains p.id))).map Pipe.id

/-- The record built by stepReducer's return statement for a started,
non-ended run (state.ts lines 677-695). -/
def runStepBody (dt r : Rat) (s : State) : State :=
  { s with
    elapsed := s.elapsed + dt
    flapCooldown := max 0 (s.flapCooldown - dt)
    remainingDefs := tickFuture s dt
    pipes := tickPipes s dt
    birdY := tickBirdY1 s dt
    birdVy := tickBirdVy2 s dt r
    lives := tickLives s dt
    score := s.score + (newlyPassed s dt).length
    scoredIds :=
      if (newlyPassed s dt).length ≠ 0 then s.scoredIds ++ newlyPassed s dt
      else s.scoredIds
    nextPipeId := s.nextPipeId + (tickDue s dt).length
    hurtCooldown :=
      if tickHit s dt ∧ tickHurtCd s dt ≤ 0 ∧ tickGameEnd s dt = false then 3 / 5
      else tickHurtCd s dt
    gameEnd := tickGameEnd s dt }

/-- `stepReducer(dt, r)` of state.ts lines 552-696: after game end only
gravity integrates (no clamping) and the flap cooldown is pinned to 0;
before the first click the state passes through unchanged; otherwise the
full physics/spawn/collision/score update runs. -/
def stepReducer (dt r : Rat) (s : State) : State :=
  if s.gameEnd then
    { s with
      birdVy := s.birdVy + GRAVITY * dt
      birdY := s.birdY + (s.birdVy + GRAVITY * dt) * dt
      flapCooldown := 0 }
  else if s.started = false then s
  else runStepBody dt r s

/-! ## The flap, start, reset and ghost reducers -/

/-- The reducer produced by `rawFlap$` (state.ts lines 453-465):
`s.gameEnd || s.flapCooldown > 0 ? s : { ...s, birdVy: FLAP_VELOCITY, flapCooldown: 0.12 }`. -/
def flapReducer (s : State) : State :=
  if s.gameEnd = true ∨ s.flapCooldown > 0 then s
  else { s with birdVy := FLAP_VELOCITY, flapCooldown := 12 / 100 }

/-- The reducer produced by `startReducer$`: `s => ({ ...s, started: true })`. -/
def startReducer (s : State) : State :=
  { s with started := true }

/-- The reducer produced by `resetReducer$` (state.ts lines 718-726),
parameterised by the parsed schedule the stream closes over. -/
def resetReducer (defs : List PipeDef) : State :=
  { initialState with
    elapsed := 0
    remainingDefs := defs
    ghostYs := []
    started := false }

/-- The overlay sample list built by the ghost playback reducer
(state.ts lines 754-764): `framesList.map(fr => fr[Math.min(idx, fr.length - 1)])`
with `idx = Math.max(0, i)`; the tick index is a natural number here so
the outer max is the identity.  A length-0 recording would index at -1
(undefined) in the source; the model returns the default 0 there, and
every claim about individual samples assumes the recording is nonempty,
which the recorder guarantees. -/
def ghostYsAt (framesList : List (List Rat)) (i : Nat) : List Rat :=
  framesList.map (fun fr => fr.getD (min i (fr.length - 1)) 0)

/-- The ghost playback reducer: `s => ({ ...s, ghostYs: ys })`. -/
def ghostReducer (framesList : List (List Rat)) (i : Nat) (s : State) : State :=
  { s with ghostYs := ghostYsAt framesList i }

/-! ## The merged event stream

All reducers of one run are merged into a single scan; an event is one
reducer application. -/

/-- One event of the merged per-run reducer stream. -/
inductive GEvent where
  | reset
  | start
  | flap
  | tick (dt r : Rat)
  | ghost (framesList : List (List Rat)) (i : Nat)

/-- Apply one event's reducer, as the scan over the merged stream does. -/
def applyEvent (defs : List PipeDef) : GEvent → State → State
  | GEvent.reset, _ => resetReducer defs
  | GEvent.start, s => startReducer s
  | GEvent.flap, s => flapReducer s
  | GEvent.tick dt r, s => stepReducer dt r s
  | GEvent.ghost fl i, s => ghostReducer fl i s

/-- Fold a list of events over a state. -/
def applyEvents (defs : List PipeDef) (evs : List GEvent) (s : State) : State :=
  evs.foldl (fun s e => applyEvent defs e s) s

/-! ## The CSV schedule parser (state.ts lines 407-439)

The parser runs on ordinary JavaScript numbers, where a non-numeric cell
becomes NaN and NaN propagates through arithmetic, min and max.  That
behaviour is what the parsing claims are about, so the parser is
modelled over an explicit JavaScript-number domain.  String values are
handled as character lists so that every step is plain structural
recursion. -/

/-- A JavaScript number as the parser observes it: NaN, an infinity, or
a finite value (modelled as an exact rational). -/
inductive JsNum where
  | nan
  | posInf
  | negInf
  | fin (q : Rat)
deriving DecidableEq

/-- `Number.isFinite`. -/
def jsFinite : JsNum → Bool
  | JsNum.fin _ => true
  | _ => false

/-- The finite value carried by a JsNum (0 for the non-finite cases;
only ever read after a finiteness check). -/
def finVal : JsNum → Rat
  | JsNum.fin q => q
  | _ => 0

/-- Multiplication of a JsNum by a positive rational constant, as in
`Number(gy) * Viewport.CANVAS_HEIGHT`: NaN propagates, infinities keep
their sign (the constant is 400 at every use site). -/
def jsMulPos (a : JsNum) (c : Rat) : JsNum :=
  match a with
  | JsNum.nan => JsNum.nan
  | JsNum.posInf => JsNum.posInf
  | JsNum.negInf => JsNum.negInf
  | JsNum.fin q => JsNum.fin (q * c)

/-- Addition of a finite rational constant, as in `+ PIPE_GAP_TWEAK`. -/
def jsAddFin (a : JsNum) (c : Rat) : JsNum :=
  match a with
  | JsNum.nan => JsNum.nan
  | JsNum.posInf => JsNum.posInf
  | JsNum.negInf => JsNum.negInf
  | JsNum.fin q => JsNum.fin (q + c)

/-- `Math.min(c, a)` with a finite first argument: NaN propagates. -/
def jsMinFin (c : Rat) (a : JsNum) : JsNum :=
  match a with
  | JsNum.nan => JsNum.nan
  | JsNum.posInf => JsNum.fin c
  | JsNum.negInf => JsNum.negInf
  | JsNum.fin q => JsNum.fin (min c q)

/-- `Math.max(c, a)` with a finite first argument: NaN propagates. -/
def jsMaxFin (c : Rat) (a : JsNum) : JsNum :=
  match a with
  | JsNum.nan => JsNum.nan
  | JsNum.posInf => JsNum.posInf
  | JsNum.negInf => JsNum.fin c
  | JsNum.fin q => JsNum.fin (max c q)

/-- The parser's output row type, `PipeDef` in the source; named apart
from the run model's `PipeDef` because its fields can be NaN. -/
structure RawPipeDef where
  time : JsNum
  gapYpx : JsNum
  gapHpx : JsNum
deriving DecidableEq

/-! ### Character utilities -/

/-- Whitespace for trimming and for the regex class `\s` (the ASCII
white space the inputs at hand can contain). -/
def isWsChar (c : Char) : Bool :=
  c = ' ' || c = '\t' || c = '\r' || c = '\n' || c = '\x0b' || c = '\x0c'

/-- Trim leading and trailing whitespace, as `String.prototype.trim`. -/
def trimChars (cs : List Char) : List Char :=
  ((cs.dropWhile isWsChar).reverse.dropWhile isWsChar).reverse

/-- Split a character list at every occurrence of the separator, as
`String.prototype.split` with a one-character separator; always returns
at least one (possibly empty) piece. -/
def splitOnChar (sep : Char) : List Char → List (List Char)
  | [] => [[]]
  | c :: cs =>
    match splitOnChar sep cs with
    | [] => [[c]]
    | piece :: rest =>
      if c = sep then [] :: piece :: rest else (c :: piece) :: rest

/-! ### The JavaScript `Number` conversion

`Number(string)` trims the string, maps the empty string to 0, accepts
an optionally signed decimal literal (digits, optional fraction,
optional exponent) or `Infinity`, accepts unsigned hexadecimal, octal
and binary literals, and yields NaN on everything else.  The model
covers exactly that grammar over exact rationals (no overflow to
infinity). -/

def digitsToNat (base : Nat) (ds : List Char) : Nat :=
  ds.foldl (fun n c =>
    base * n +
      (if '0' ≤ c ∧ c ≤ '9' then c.toNat - 48
       else if 'a' ≤ c ∧ c ≤ 'f' then c.toNat - 87
       else c.toNat - 55)) 0

def isDigitChar (c : Char) : Bool := '0' ≤ c && c ≤ '9'

def isHexChar (c : Char) : Bool :=
  ('0' ≤ c && c ≤ '9') || ('a' ≤ c && c ≤ 'f') || ('A' ≤ c && c ≤ 'F')

def isOctChar (c : Char) : Bool := '0' ≤ c && c ≤ '7'

def isBinChar (c : Char) : Bool := c = '0' || c = '1'

/-- Parse a full exponent suffix: an optional sign and a nonempty digit
run consuming the whole remainder. -/
def parseExpPart (cs : List Char) : Option Int :=
  let core : List Char → Option Int := fun ds =>
    if ds ≠ [] ∧ ds.all isDigitChar then some (digitsToNat 10 ds) else Option.none
  match cs with
  | '+' :: ds => core ds
  | '-' :: ds => (core ds).map (fun n => -n)
  | ds => core ds

def pow10 (e : Int) : Rat :=
  if 0 ≤ e then ((10 : Rat)) ^ e.toNat else 1 / ((10 : Rat)) ^ (-e).toNat

/-- Parse an unsigned decimal literal (`digits`, `digits.digits`,
`.digits`, `digits.` — each with an optional exponent) consuming the
whole character list. -/
def parseUnsignedDec (cs : List Char) : Option Rat :=
  let ip := cs.takeWhile isDigitChar
  let rest1 := cs.dropWhile isDigitChar
  match rest1 with
  | [] => if ip = [] then Option.none else some (digitsToNat 10 ip)
  | '.' :: rest2 =>
    let fp := rest2.takeWhile isDigitChar
    let rest3 := rest2.dropWhile isDigitChar
    if ip = [] ∧ fp = [] then Option.none
    else
      let mant : Rat :=
        (digitsToNat 10 ip : Rat) + (digitsToNat 10 fp : Rat) / (10 : Rat) ^ fp.length
      match rest3 with
      | [] => some mant
      | e :: rest4 =>
        if e = 'e' ∨ e = 'E' then (parseExpPart rest4).map (fun ex => mant * pow10 ex)
        else Option.none
  | e :: rest2 =>
    if (e = 'e' ∨ e = 'E') ∧ ip ≠ [] then
      (parseExpPart rest2).map (fun ex => (digitsToNat 10 ip : Rat) * pow10 ex)
    else Option.none

def infinityChars : List Char :=
  ['I', 'n', 'f', 'i', 'n', 'i', 't', 'y']

/-- A signed decimal literal or signed `Infinity`. -/
def jsNumSigned (cs : List Char) (neg : Bool) : JsNum :=
  if cs = infinityChars then (if neg then JsNum.negInf else JsNum.posInf)
  else
    match parseUnsignedDec cs with
    | some q => JsNum.fin (if neg then -q else q)
    | Option.none => JsNum.nan

/-- The whole-string numeric grammar after trimming (nonempty input). -/
def jsNumBody (cs : List Char) : JsNum :=
  match cs with
  | '+' :: rest => jsNumSigned rest false
  | '-' :: rest => jsNumSigned rest true
  | '0' :: b :: rest =>
    if b = 'x' ∨ b = 'X' then
      (if rest ≠ [] ∧ rest.all isHexChar then JsNum.fin (digitsToNat 16 rest) else JsNum.nan)
    else if b = 'o' ∨ b = 'O' then
      (if rest ≠ [] ∧ rest.all isOctChar then JsNum.fin (digitsToNat 8 rest) else JsNum.nan)
    else if b = 'b' ∨ b = 'B' then
      (if rest ≠ [] ∧ rest.all isBinChar then JsNum.fin (digitsToNat 2 rest) else JsNum.nan)
    else jsNumSigned cs false
  | _ => jsNumSigned cs false

/-- `Number(x)` where `x` is a string cell or `undefined` (a missing
cell from array destructuring): `Number(undefined)` is NaN, the
whitespace-only string converts to 0. -/
def jsNumber : Option (List Char) → JsNum
  | Option.none => JsNum.nan
  | some cs =>
    match trimChars cs with
    | [] => JsNum.fin 0
    | t => jsNumBody t

/-! ### The parser itself -/

/-- Case-insensitive literal match; returns the remainder on success. -/
def matchCI : List Char → List Char → Option (List Char)
  | [], cs => some cs
  | _ :: _, [] => Option.none
  | l :: ls, c :: cs => if l.toLower = c.toLower then matchCI ls cs else Option.none

/-- The header test `/^gap_y\s*,\s*gap_height\s*,\s*time/i.test(lines[0])`. -/
def headerMatch (cs : List Char) : Bool :=
  match matchCI ['g', 'a', 'p', '_', 'y'] cs with
  | Option.none => false
  | some r1 =>
    match (r1.dropWhile isWsChar) with
    | ',' :: r2 =>
      match matchCI ['g', 'a', 'p', '_', 'h', 'e', 'i', 'g', 'h', 't'] (r2.dropWhile isWsChar) with
      | Option.none => false
      | some r3 =>
        match (r3.dropWhile isWsChar) with
        | ',' :: r4 =>
          match matchCI ['t', 'i', 'm', 'e'] (r4.dropWhile isWsChar) with
          | Option.none => false
          | some _ => true
        | _ => false
    | _ => false

/-- The nonempty trimmed lines:
`csv.split(/\r?\n/).map(l => l.trim()).filter(Boolean)` (splitting on
the newline character; a carriage return before it is removed by the
trim). -/
def csvLines (csv : List Char) : List (List Char) :=
  ((splitOnChar '\n' csv).map trimChars).filter (fun l => decide (l ≠ []))

/-- The data rows: the first line is dropped when it matches the header
pattern. -/
def bodyLines (csv : List Char) : List (List Char) :=
  match csvLines csv with
  | [] => []
  | l0 :: rest => if headerMatch l0 then rest else l0 :: rest

/-- One row's conversion (state.ts lines 417-436):
`const [gy, gh, t] = line.split(",")`, then
`gapYpx = Math.max(0, Math.min(400, Number(gy) * 400))`,
`gapHpx = Math.max(10, Math.min(400, Number(gh) * 400 + 30))` (30 is
`Viewport.PIPE_GAP_TWEAK`) and `time = Number(t)`. -/
def convRow (line : List Char) : RawPipeDef :=
  let parts := splitOnChar ',' line
  let gy := jsNumber (parts.get? 0)
  let gh := jsNumber (parts.get? 1)
  let t := jsNumber (parts.get? 2)
  { time := t
    gapYpx := jsMaxFin 0 (jsMinFin 400 (jsMulPos gy 400))
    gapHpx := jsMaxFin 10 (jsMinFin 400 (jsAddFin (jsMulPos gh 400) 30)) }

/-- The comparison the final `.sort((a, b) => a.time - b.time)` orders
by; at the point of sorting every row has a finite time. -/
def rowLe (a b : RawPipeDef) : Prop :=
  finVal a.time ≤ finVal b.time

instance : DecidableRel rowLe := fun a b =>
  inferInstanceAs (Decidable (finVal a.time ≤ finVal b.time))

/-- `parsePipes` of state.ts lines 407-439: trim and drop empty lines,
skip an optional header row, convert every remaining row, drop rows
whose time is not finite, and sort ascending by time (a stable sort, as
`Array.prototype.sort`). -/
def parsePipes (csv : List Char) : List RawPipeDef :=
  List.insertionSort rowLe
    (((bodyLines csv).map convRow).filter (fun d => jsFinite d.time))

instance : IsTotal RawPipeDef rowLe :=
  ⟨fun a b => le_total (finVal a.time) (finVal b.time)⟩

instance : IsTrans RawPipeDef rowLe :=
  ⟨fun _ _ _ hab hbc => le_trans hab hbc⟩

/-! ## Concrete states used by counterexamples and witnesses -/

/-- A started mid-run state with the bird resting on the ground and a
pipe whose top rectangle reaches down into the ground band and overlaps
the bird horizontally after this tick's movement. -/
def sC1 : State :=
  { gameEnd := false, birdY := 305, birdVy := 0,
    pipes := [{ id := 1, x := 160, gapY := 350, gapH := 10 }],
    score := 0, lives := 3, elapsed := 0,
    remainingDefs := [{ time := 100, gapYpx := 200, gapHpx := 100 }],
    scoredIds := [], nextPipeId := 2, hurtCooldown := 0, flapCooldown := 0,
    started := true, ghostYs := [] }

/-- A started mid-run state on its last life, resting on the ground with
no invulnerability left, so the next tick's ground hit ends the run. -/
def sC2 : State :=
  { gameEnd := false, birdY := 305, birdVy := 0, pipes := [],
    score := 0, lives := 1, elapsed := 0,
    remainingDefs := [{ time := 100, gapYpx := 200, gapHpx := 100 }],
    scoredIds := [], nextPipeId := 1, hurtCooldown := 0, flapCooldown := 0,
    started := true, ghostYs := [] }

/-- A started mid-run state with one unscored pipe that this tick's
movement carries past the bird's right edge. -/
def sC3 : State :=
  { gameEnd := false, birdY := 100, birdVy := 0,
    pipes := [{ id := 1, x := 100, gapY := 50, gapH := 20 }],
    score := 0, lives := 3, elapsed := 0,
    remainingDefs := [{ time := 100, gapYpx := 200, gapHpx := 100 }],
    scoredIds := [], nextPipeId := 2, hurtCooldown := 0, flapCooldown := 0,
    started := true, ghostYs := [] }

/-- A started mid-run state in free fall away from both boundaries and
from every pipe. -/
def sC4 : State :=
  { gameEnd := false, birdY := 100, birdVy := 0, pipes := [],
    score := 0, lives := 3, elapsed := 0,
    remainingDefs := [{ time := 100, gapYpx := 200, gapHpx := 100 }],
    scoredIds := [], nextPipeId := 1, hurtCooldown := 0, flapCooldown := 0,
    started := true, ghostYs := [] }

/-- An ended state (run over, bird falling through the floor). -/
def sC6 : State :=
  { gameEnd := true, birdY := 310, birdVy := 50,
    pipes := [{ id := 3, x := 200, gapY := 100, gapH := 80 }],
    score := 4, lives := 0, elapsed := 7,
    remainingDefs := [{ time := 9, gapYpx := 200, gapHpx := 100 }],
    scoredIds := [2], nextPipeId := 5, hurtCooldown := 0, flapCooldown := 1 / 10,
    started := true, ghostYs := [] }

/-- The CSV text of the counterexample row: its gap-centre cell is not
numeric, its trigger time is the finite number 1. -/
def csvC8 : String := "abc,0.5,1"


/-! ## General facts about one run tick -/

theorem stepReducer_run (dt r : Rat) (s : State) (h1 : s.started = true)
    (h2 : s.gameEnd = false) : stepReducer dt r s = runStepBody dt r s := by
  simp [stepReducer, h1, h2]

theorem top_lt_ground : TOP < GROUND := by
  norm_num [TOP, GROUND, CANVAS_HEIGHT, BIRB_HEIGHT]

/-! ## Helper lemmas about the lives update -/

theorem sub_one_le_tickLives (s : State) (dt : Rat) :
    s.lives - 1 ≤ tickLives s dt := by
  unfold tickLives
  split
  · exact le_max_right _ _
  · omega

theorem tickLives_le (s : State) (dt : Rat) (hl : 0 ≤ s.lives) :
    tickLives s dt ≤ s.lives := by
  unfold tickLives
  split
  · exact max_le hl (by omega)
  · exact le_refl _

theorem tickLives_nonneg (s : State) (dt : Rat) (hl : 0 ≤ s.lives) :
    0 ≤ tickLives s dt := by
  unfold tickLives
  split
  · exact le_max_left _ _
  · exact hl

/-! ## Claim C1 -/

/-- C1, counterexample.  On a started, non-ended tick of `sC1` the
ground clamp fires (a boundary hit), yet obstacle collision is not
skipped: the first pipe's top rectangle overlaps the clamped bird box,
and the tick's final velocity is the pipe bounce `bumpDown r = 250`
rather than the ground bounce `-bumpUp r = -335`.  So a boundary hit
and a pipe hit do take effect in the same tick, and the boundary bounce
is not the tick's final velocity. -/
theorem c1_boundary_and_pipe_same_tick_cex :
    sC1.started = true ∧ sC1.gameEnd = false ∧
    tickHitGround sC1 (2 / 125) = true ∧
    tickPipeHit sC1 (2 / 125) = HitDir.top ∧
    (stepReducer (2 / 125) (1 / 2) sC1).birdVy = bumpDown (1 / 2) ∧
    bumpDown (1 / 2) = 250 ∧ -bumpUp (1 / 2) = -335 ∧ (250 : Rat) ≠ -335 := by
  refine ⟨rfl, rfl, ?_, ?_, ?_, by norm_num [bumpDown], by norm_num [bumpUp], by norm_num⟩ <;>
  norm_num [stepReducer, runStepBody, tickBirdVy2, tickPipeHit, tickBirdBox,
    tickBirdY1, tickHitGround, tickHitTop, tickYClamped, tickY0, tickVy0,
    tickPipes, tickSpawned, tickDue, spawnPipes, movePipe, pipeCollision,
    pipeRects, overlaps, bumpDown, bumpUp, tickBirdVy1, tickVyClamped,
    GRAVITY, GROUND, TOP, CANVAS_WIDTH, CANVAS_HEIGHT, BIRB_WIDTH, BIRB_HEIGHT,
    PIPE_WIDTH, PIPE_SPEED, birdX, sC1, List.partition_eq_filter_filter,
    List.filter]

/-- C1, amended.  Boundary clamp is evaluated first and fixes the tick's
position (GROUND on a ground hit, TOP on a top hit), but pipe collision
is still tested against the clamped bird box; when a pipe rectangle also
overlaps, the pipe bounce — not the boundary bounce — is the tick's
final velocity, and the two simultaneous hits still cost at most one
life. -/
theorem c1_pipe_bounce_overrides_boundary (s : State) (dt r : Rat)
    (h1 : s.started = true) (h2 : s.gameEnd = false) (hl : 0 ≤ s.lives)
    (hb : tickHitTop s dt = true ∨ tickHitGround s dt = true)
    (hp : tickPipeHit s dt ≠ HitDir.none) :
    (stepReducer dt r s).birdVy =
      (if tickPipeHit s dt = HitDir.top then bumpDown r else -bumpUp r) ∧
    (stepReducer dt r s).birdY =
      (if tickHitGround s dt = true then GROUND else TOP) ∧
    s.lives - 1 ≤ (stepReducer dt r s).lives ∧
    (stepReducer dt r s).lives ≤ s.lives := by
  rw [stepReducer_run dt r s h1 h2]
  refine ⟨?_, ?_, sub_one_le_tickLives s dt, tickLives_le s dt hl⟩
  · show tickBirdVy2 s dt r = _
    unfold tickBirdVy2
    rcases hcase : tickPipeHit s dt with _ | _ | _
    · exact absurd hcase hp
    · simp
    · simp
  · show tickBirdY1 s dt = _
    unfold tickBirdY1
    rcases hg : tickHitGround s dt with _ | _
    · have ht : tickHitTop s dt = true := by
        rcases hb with h | h
        · exact h
        · rw [h] at hg; cases hg
      have hle : tickYClamped s dt ≤ TOP := by
        simpa [tickHitTop, decide_eq_true_eq] using ht
      simp only [Bool.false_eq_true, if_false]
      unfold tickYClamped at hle ⊢
      split_ifs at hle ⊢ with hA hB
      · exact absurd hle (not_le.mpr top_lt_ground)
      · rfl
      · exact absurd hle hB
    · simp

/-- C1, witness for the amended theorem at the concrete state `sC1`. -/
theorem c1_amended_witness :
    (stepReducer (2 / 125) (1 / 2) sC1).birdY = GROUND ∧
    (stepReducer (2 / 125) (1 / 2) sC1).lives ≤ sC1.lives := by
  have hb : tickHitTop sC1 (2 / 125) = true ∨ tickHitGround sC1 (2 / 125) = true := by
    right
    norm_num [tickHitGround, tickYClamped, tickY0, tickVy0, GRAVITY, GROUND, TOP,
      CANVAS_HEIGHT, BIRB_HEIGHT, sC1]
  have hp : tickPipeHit sC1 (2 / 125) ≠ HitDir.none := by
    have : tickPipeHit sC1 (2 / 125) = HitDir.top := by
      norm_num [tickPipeHit, tickBirdBox, tickBirdY1, tickHitGround, tickHitTop,
        tickYClamped, tickY0, tickVy0, tickPipes, tickSpawned, tickDue, spawnPipes,
        movePipe, pipeCollision, pipeRects, overlaps, GRAVITY, GROUND, TOP,
        CANVAS_WIDTH, CANVAS_HEIGHT, BIRB_WIDTH, BIRB_HEIGHT, PIPE_WIDTH, PIPE_SPEED,
        birdX, sC1, List.partition_eq_filter_filter, List.filter]
    rw [this]
    intro h; cases h
  have h := c1_pipe_bounce_overrides_boundary sC1 (2 / 125) (1 / 2) rfl rfl
    (by norm_num [sC1]) hb hp
  refine ⟨?_, h.2.2.2⟩
  rw [h.2.1]
  have hg : tickHitGround sC1 (2 / 125) = true := by
    norm_num [tickHitGround, tickYClamped, tickY0, tickVy0, GRAVITY, GROUND, TOP,
      CANVAS_HEIGHT, BIRB_HEIGHT, sC1]
  rw [hg]
  simp

/-! ## Claim C2 -/

/-- C2, counterexample.  In `sC2` (one life left, resting on the ground,
no invulnerability) the tick's ground hit decrements lives from 1 to 0 —
a life-decrementing hit — but because that hit ends the run,
`hurtCooldown` is left at its decayed value 0 instead of being reset to
0.6 s, refuting "after any life-decrementing hit hurtCooldown is reset
to 0.6 seconds". -/
theorem c2_no_cooldown_reset_on_final_hit_cex :
    sC2.started = true ∧ sC2.gameEnd = false ∧
    tickHit sC2 (2 / 125) = true ∧
    (stepReducer (2 / 125) (1 / 2) sC2).lives = sC2.lives - 1 ∧
    (stepReducer (2 / 125) (1 / 2) sC2).gameEnd = true ∧
    (stepReducer (2 / 125) (1 / 2) sC2).hurtCooldown = 0 ∧
    (0 : Rat) ≠ 3 / 5 := by
  refine ⟨rfl, rfl, ?_, ?_, ?_, ?_, by norm_num⟩ <;>
  norm_num [stepReducer, runStepBody, tickBirdVy2, tickPipeHit, tickBirdBox,
    tickBirdY1, tickHitGround, tickHitTop, tickYClamped, tickY0, tickVy0,
    tickPipes, tickSpawned, tickDue, spawnPipes, movePipe, pipeCollision,
    pipeRects, overlaps, bumpDown, bumpUp, tickBirdVy1, tickVyClamped,
    tickHit, tickHurtCd, tickLives, tickLevelComplete, tickGameEnd,
    newlyPassed, GRAVITY, GROUND, TOP, CANVAS_WIDTH, CANVAS_HEIGHT,
    BIRB_WIDTH, BIRB_HEIGHT, PIPE_WIDTH, PIPE_SPEED, birdX, sC2,
    List.partition_eq_filter_filter, List.filter]

/-- C2, amended.  On a started, non-ended tick: lives never increase and
never go below 0; on a hit tick, lives decrease by exactly 1 precisely
when the tick's decayed cooldown `max 0 (hurtCooldown - dt)` has reached
0 (so two hits inside one cooldown window cost one life); on a no-hit
tick lives are unchanged; and the cooldown is reset to 0.6 s after a
life-decrementing hit only when that hit does not end the run, keeping
its decayed value otherwise. -/
theorem c2_lives_cooldown_amended (s : State) (dt r : Rat)
    (h1 : s.started = true) (h2 : s.gameEnd = false) (hl : 1 ≤ s.lives) :
    ((stepReducer dt r s).lives ≤ s.lives ∧ 0 ≤ (stepReducer dt r s).lives) ∧
    (tickHit s dt = true →
      ((stepReducer dt r s).lives = s.lives - 1 ↔ tickHurtCd s dt ≤ 0)) ∧
    (tickHit s dt = false → (stepReducer dt r s).lives = s.lives) ∧
    (stepReducer dt r s).hurtCooldown =
      (if tickHit s dt = true ∧ tickHurtCd s dt ≤ 0 ∧ (stepReducer dt r s).gameEnd = false
       then 3 / 5 else tickHurtCd s dt) := by
  rw [stepReducer_run dt r s h1 h2]
  have hl0 : 0 ≤ s.lives := le_trans (by norm_num) hl
  refine ⟨⟨tickLives_le s dt hl0, tickLives_nonneg s dt hl0⟩, ?_, ?_, ?_⟩
  · intro hhit
    show tickLives s dt = s.lives - 1 ↔ tickHurtCd s dt ≤ 0
    unfold tickLives
    by_cases hcd : tickHurtCd s dt ≤ 0
    · rw [if_pos ⟨hhit, hcd⟩, max_eq_right (by omega)]
      simp [hcd]
    · rw [if_neg (fun h => hcd h.2)]
      constructor
      · intro h; omega
      · intro h; exact absurd h hcd
  · intro hhit
    show tickLives s dt = s.lives
    unfold tickLives
    rw [if_neg (fun h => by rw [hhit] at h; exact Bool.false_ne_true h.1)]
  · show (if tickHit s dt ∧ tickHurtCd s dt ≤ 0 ∧ tickGameEnd s dt = false then (3 : Rat) / 5
        else tickHurtCd s dt) = _
    rfl

/-- C2, witness for the amended theorem: a ground hit at `sC1` with no
cooldown left costs exactly one life. -/
theorem c2_amended_witness :
    (stepReducer (2 / 125) (1 / 2) sC1).lives = sC1.lives - 1 := by
  have h := c2_lives_cooldown_amended sC1 (2 / 125) (1 / 2) rfl rfl (by norm_num [sC1])
  have hhit : tickHit sC1 (2 / 125) = true := by
    have hg : tickHitGround sC1 (2 / 125) = true := by
      norm_num [tickHitGround, tickYClamped, tickY0, tickVy0, GRAVITY, GROUND, TOP,
        CANVAS_HEIGHT, BIRB_HEIGHT, sC1]
    simp [tickHit, hg]
  exact (h.2.1 hhit).mpr (by norm_num [tickHurtCd, sC1])

/-! ## Claim C4 -/

/-- C4.  On a started, non-ended tick on which no pipe rectangle
overlaps the (clamped) bird box, the bird integrates as
`vy1 = vy + GRAVITY*dt`, `y1 = y + vy1*dt`; the position is `y1` clamped
to `[TOP, GROUND]`; and the final velocity is the boundary bounce
`150 + 200*r` downward after a top hit, `-(250 + 170*r)` upward after a
ground hit, and the unclamped `vy1` otherwise (the transient zeroed
velocity of the clamp never survives, because every clamp is treated as
a collision). -/
theorem tickHitGround_eq (s : State) (dt : Rat) :
    tickHitGround s dt = decide (tickY0 s dt ≥ GROUND) := by
  unfold tickHitGround tickYClamped
  by_cases hG : tickY0 s dt ≥ GROUND
  · simp [hG]
  · by_cases hT : tickY0 s dt ≤ TOP
    · have h1 : ¬ (TOP ≥ GROUND) := not_le.mpr top_lt_ground
      simp [hG, hT, h1]
    · simp [hG, hT]

theorem tickHitTop_eq (s : State) (dt : Rat) :
    tickHitTop s dt = decide (tickY0 s dt ≤ TOP) := by
  unfold tickHitTop tickYClamped
  by_cases hG : tickY0 s dt ≥ GROUND
  · have h1 : ¬ (GROUND ≤ TOP) := not_le.mpr top_lt_ground
    have h2 : ¬ (tickY0 s dt ≤ TOP) :=
      not_le.mpr (lt_of_lt_of_le top_lt_ground hG)
    simp [hG, h1, h2]
  · by_cases hT : tickY0 s dt ≤ TOP
    · simp [hG, hT]
    · simp [hG, hT]

theorem tickBirdY1_eq (s : State) (dt : Rat) :
    tickBirdY1 s dt =
      (if tickY0 s dt ≥ GROUND then GROUND
       else if tickY0 s dt ≤ TOP then TOP
       else tickY0 s dt) := by
  unfold tickBirdY1
  rw [tickHitGround_eq]
  unfold tickYClamped
  by_cases hG : tickY0 s dt ≥ GROUND
  · simp [hG]
  · by_cases hT : tickY0 s dt ≤ TOP
    · simp [hG, hT]
    · simp [hG, hT]

theorem tickBirdVy1_eq (s : State) (dt r : Rat) :
    tickBirdVy1 s dt r =
      (if tickY0 s dt ≤ TOP then bumpDown r
       else if tickY0 s dt ≥ GROUND then -bumpUp r
       else tickVy0 s dt) := by
  unfold tickBirdVy1 tickVyClamped
  rw [tickHitTop_eq, tickHitGround_eq]
  by_cases hT : tickY0 s dt ≤ TOP
  · simp [hT]
  · by_cases hG : tickY0 s dt ≥ GROUND
    · simp [hT, hG]
    · simp [hT, hG]

theorem c4_integrate_clamp_bounce (s : State) (dt r : Rat)
    (h1 : s.started = true) (h2 : s.gameEnd = false)
    (hp : tickPipeHit s dt = HitDir.none) :
    (stepReducer dt r s).birdY =
      (if s.birdY + (s.birdVy + GRAVITY * dt) * dt ≥ GROUND then GROUND
       else if s.birdY + (s.birdVy + GRAVITY * dt) * dt ≤ TOP then TOP
       else s.birdY + (s.birdVy + GRAVITY * dt) * dt) ∧
    (stepReducer dt r s).birdVy =
      (if s.birdY + (s.birdVy + GRAVITY * dt) * dt ≤ TOP then 150 + 200 * r
       else if s.birdY + (s.birdVy + GRAVITY * dt) * dt ≥ GROUND then -(250 + 170 * r)
       else s.birdVy + GRAVITY * dt) := by
  rw [stepReducer_run dt r s h1 h2]
  have hy0 : tickY0 s dt = s.birdY + (s.birdVy + GRAVITY * dt) * dt := by
    simp [tickY0, tickVy0]
  have hbd : bumpDown r = 150 + 200 * r := by unfold bumpDown; ring
  have hbu : -bumpUp r = -(250 + 170 * r) := by unfold bumpUp; ring
  constructor
  · show tickBirdY1 s dt = _
    rw [tickBirdY1_eq, hy0]
  · show tickBirdVy2 s dt r = _
    unfold tickBirdVy2
    rw [hp]
    simp only [reduceCtorEq, if_false]
    rw [tickBirdVy1_eq, hbd, hbu, hy0]
    unfold tickVy0
    rfl

/-- C4, witness at the concrete free-fall state `sC4`. -/
theorem c4_witness :
    (stepReducer (2 / 125) (1 / 2) sC4).birdVy = sC4.birdVy + GRAVITY * (2 / 125) := by
  have hp : tickPipeHit sC4 (2 / 125) = HitDir.none := by
    norm_num [tickPipeHit, tickBirdBox, tickBirdY1, tickHitGround, tickHitTop,
      tickYClamped, tickY0, tickVy0, tickPipes, tickSpawned, tickDue, spawnPipes,
      movePipe, pipeCollision, pipeRects, overlaps, GRAVITY, GROUND, TOP,
      CANVAS_WIDTH, CANVAS_HEIGHT, BIRB_WIDTH, BIRB_HEIGHT, PIPE_WIDTH, PIPE_SPEED,
      birdX, sC4, List.partition_eq_filter_filter, List.filter]
  have h := (c4_integrate_clamp_bounce sC4 (2 / 125) (1 / 2) rfl rfl hp).2
  rw [h, if_neg, if_neg]
  · norm_num [GRAVITY, GROUND, TOP, CANVAS_HEIGHT, BIRB_HEIGHT, sC4]
  · norm_num [GRAVITY, GROUND, TOP, CANVAS_HEIGHT, BIRB_HEIGHT, sC4]

/-! ## Claim C6 -/

/-- C6.  Once `gameEnd` is true, a tick still integrates gravity with no
boundary clamping, but pipes, score, lives, elapsed, remainingDefs,
scoredIds, nextPipeId and gameEnd itself are unchanged, and a flap event
leaves the state completely unchanged. -/
theorem c6_frozen_after_end (dt r : Rat) (s : State) (h : s.gameEnd = true) :
    (stepReducer dt r s).birdVy = s.birdVy + GRAVITY * dt ∧
    (stepReducer dt r s).birdY = s.birdY + (s.birdVy + GRAVITY * dt) * dt ∧
    (stepReducer dt r s).pipes = s.pipes ∧
    (stepReducer dt r s).score = s.score ∧
    (stepReducer dt r s).lives = s.lives ∧
    (stepReducer dt r s).elapsed = s.elapsed ∧
    (stepReducer dt r s).remainingDefs = s.remainingDefs ∧
    (stepReducer dt r s).scoredIds = s.scoredIds ∧
    (stepReducer dt r s).nextPipeId = s.nextPipeId ∧
    (stepReducer dt r s).gameEnd = true ∧
    flapReducer s = s := by
  refine ⟨?_, ?_, ?_, ?_, ?_, ?_, ?_, ?_, ?_, ?_, ?_⟩ <;>
    simp [stepReducer, h, flapReducer]

/-- C6, witness at the ended state `sC6`. -/
theorem c6_witness :
    (stepReducer (2 / 125) (1 / 2) sC6).score = sC6.score ∧
    (stepReducer (2 / 125) (1 / 2) sC6).pipes = sC6.pipes ∧
    flapReducer sC6 = sC6 := by
  have h := c6_frozen_after_end (2 / 125) (1 / 2) sC6 rfl
  exact ⟨h.2.2.2.1, h.2.2.1, h.2.2.2.2.2.2.2.2.2.2⟩

/-! ## Claim C10 -/

/-- C10.  A flap (pointer-down) reducer application leaves the state
completely unchanged when the run has ended or the flap cooldown is
still positive; otherwise it sets `birdVy := FLAP_VELOCITY` and
`flapCooldown := 0.12` and leaves every other field unchanged. -/
theorem c10_flap_reducer (s : State) :
    ((s.gameEnd = true ∨ s.flapCooldown > 0) → flapReducer s = s) ∧
    (s.gameEnd = false → s.flapCooldown ≤ 0 →
      flapReducer s = { s with birdVy := FLAP_VELOCITY, flapCooldown := 12 / 100 }) := by
  constructor
  · intro h
    rw [flapReducer, if_pos h]
  · intro h1 h2
    rw [flapReducer, if_neg]
    rintro (hc | hc)
    · rw [h1] at hc; cases hc
    · exact absurd hc (not_lt.mpr h2)

/-- C10, witness: from the initial state a flap takes effect. -/
theorem c10_witness :
    flapReducer initialState =
      { initialState with birdVy := FLAP_VELOCITY, flapCooldown := 12 / 100 } :=
  (c10_flap_reducer initialState).2 rfl (le_refl 0)

/-! ## Spawning and partition helper lemmas -/

theorem tickDue_eq_filter (s : State) (dt : Rat) :
    tickDue s dt = s.remainingDefs.filter (fun d => decide (d.time ≤ s.elapsed + dt)) := by
  simp [tickDue, List.partition_eq_filter_filter]

theorem tickFuture_eq_filter (s : State) (dt : Rat) :
    tickFuture s dt =
      s.remainingDefs.filter (fun d => !decide (d.time ≤ s.elapsed + dt)) := by
  rw [tickFuture, List.partition_eq_filter_filter]
  rfl

/-- In a schedule sorted by trigger time, the due rows form an initial
segment: the list is the due rows followed by the future rows. -/
theorem sorted_filter_split (l : List PipeDef) (e : Rat)
    (hs : List.Pairwise (fun a b : PipeDef => a.time ≤ b.time) l) :
    l = l.filter (fun d => decide (d.time ≤ e)) ++
        l.filter (fun d => !decide (d.time ≤ e)) := by
  induction l with
  | nil => rfl
  | cons a l ih =>
    rcases List.pairwise_cons.mp hs with ⟨ha, hl⟩
    by_cases hd : a.time ≤ e
    · have hpt : (decide (a.time ≤ e)) = true := decide_eq_true hd
      simp only [List.filter_cons, hpt, Bool.not_true, if_true, Bool.false_eq_true,
        if_false, List.cons_append]
      exact congrArg (a :: ·) (ih hl)
    · have hnone : ∀ b ∈ l, ¬ (b.time ≤ e) := fun b hb h => hd (le_trans (ha b hb) h)
      have h1 : l.filter (fun d => decide (d.time ≤ e)) = [] :=
        List.filter_eq_nil_iff.mpr (by intro b hb; simpa using hnone b hb)
      have h2 : l.filter (fun d => !decide (d.time ≤ e)) = l :=
        List.filter_eq_self.mpr (by intro b hb; simpa using hnone b hb)
      simp [List.filter_cons, hd, h1, h2]

theorem spawnPipes_length (n : Nat) (l : List PipeDef) :
    (spawnPipes n l).length = l.length := by
  induction l generalizing n with
  | nil => rfl
  | cons d l ih => simp [spawnPipes, ih]

theorem spawnPipes_map_id (n : Nat) (l : List PipeDef) :
    (spawnPipes n l).map Pipe.id = List.range' n l.length := by
  induction l generalizing n with
  | nil => rfl
  | cons d l ih => simp [spawnPipes, List.range'_succ, ih]

theorem spawnPipes_get (n : Nat) (l : List PipeDef) (k : Nat)
    (hk : k < l.length) (hk2 : k < (spawnPipes n l).length) :
    (spawnPipes n l).get ⟨k, hk2⟩ =
      { id := n + k, x := CANVAS_WIDTH,
        gapY := (l.get ⟨k, hk⟩).gapYpx, gapH := (l.get ⟨k, hk⟩).gapHpx } := by
  induction l generalizing n k with
  | nil => cases hk
  | cons d l ih =>
    cases k with
    | zero => simp [spawnPipes]
    | succ k =>
      have hk' : k < l.length := Nat.lt_of_succ_lt_succ hk
      have hk2' : k < (spawnPipes (n + 1) l).length := by
        rw [spawnPipes_length]; exact hk'
      have := ih (n + 1) k hk' hk2'
      simp only [spawnPipes, List.get_cons_succ]
      rw [this]
      have : n + 1 + k = n + (k + 1) := by omega
      simp [this]

theorem spawnPipes_id_bounds (n : Nat) (l : List PipeDef) :
    ∀ p ∈ spawnPipes n l, n ≤ p.id ∧ p.id < n + l.length := by
  induction l generalizing n with
  | nil => intro p hp; cases hp
  | cons d l ih =>
    intro p hp
    rcases List.mem_cons.mp hp with heq | hmem
    · subst heq
      constructor
      · exact le_refl _
      · simp
    · rcases ih (n + 1) p hmem with ⟨h1, h2⟩
      constructor
      · omega
      · simp only [List.length_cons]; omega

theorem mem_tickPipes (s : State) (dt : Rat) (p : Pipe) :
    p ∈ tickPipes s dt ↔
      ((∃ q ∈ s.pipes ++ tickSpawned s dt, p = movePipe dt q) ∧
        0 ≤ p.x + PIPE_WIDTH) := by
  unfold tickPipes
  rw [List.mem_filter, List.mem_map]
  constructor
  · rintro ⟨⟨q, hq, hqe⟩, hpred⟩
    exact ⟨⟨q, hq, hqe.symm⟩, by simpa [ge_iff_le] using hpred⟩
  · rintro ⟨⟨q, hq, hqe⟩, hpred⟩
    exact ⟨⟨q, hq, hqe.symm⟩, by simpa [ge_iff_le] using hpred⟩

/-! ## Claim C5 -/

/-- C5.  On a started, non-ended tick: the due rows are exactly the
remaining defs with `triggerTime ≤ elapsed` (the updated elapsed time),
the remaining defs shrink to exactly the rest — a suffix whenever the
schedule is sorted by trigger time, as the parser guarantees —, each due
row spawns a pipe at `x = CANVAS_WIDTH` carrying its gap data with
consecutive ids starting at `nextPipeId`, the post-tick live set is
exactly the moved copies (x decreased by `PIPE_SPEED*dt`) of the
existing and just-spawned pipes whose trailing edge `x + PIPE_WIDTH` is
still ≥ 0, and `nextPipeId` advances by the number of spawns. -/
theorem c5_spawn_move_cull (s : State) (dt r : Rat)
    (h1 : s.started = true) (h2 : s.gameEnd = false) :
    tickDue s dt = s.remainingDefs.filter (fun d => decide (d.time ≤ s.elapsed + dt)) ∧
    (stepReducer dt r s).remainingDefs =
      s.remainingDefs.filter (fun d => !decide (d.time ≤ s.elapsed + dt)) ∧
    (List.Pairwise (fun a b : PipeDef => a.time ≤ b.time) s.remainingDefs →
      s.remainingDefs = tickDue s dt ++ (stepReducer dt r s).remainingDefs) ∧
    ((tickSpawned s dt).length = (tickDue s dt).length ∧
      (tickSpawned s dt).map Pipe.id = List.range' s.nextPipeId (tickDue s dt).length ∧
      ∀ (k : Nat) (hk : k < (tickDue s dt).length) (hk2 : k < (tickSpawned s dt).length),
        (tickSpawned s dt).get ⟨k, hk2⟩ =
          { id := s.nextPipeId + k, x := CANVAS_WIDTH,
            gapY := ((tickDue s dt).get ⟨k, hk⟩).gapYpx,
            gapH := ((tickDue s dt).get ⟨k, hk⟩).gapHpx }) ∧
    (∀ p, p ∈ (stepReducer dt r s).pipes ↔
      ((∃ q ∈ s.pipes ++ tickSpawned s dt, p = movePipe dt q) ∧
        0 ≤ p.x + PIPE_WIDTH)) ∧
    (stepReducer dt r s).nextPipeId = s.nextPipeId + (tickDue s dt).length := by
  rw [stepReducer_run dt r s h1 h2]
  refine ⟨tickDue_eq_filter s dt, tickFuture_eq_filter s dt, ?_, ?_, ?_, rfl⟩
  · intro hs
    show s.remainingDefs = tickDue s dt ++ tickFuture s dt
    rw [tickDue_eq_filter, tickFuture_eq_filter]
    exact sorted_filter_split s.remainingDefs (s.elapsed + dt) hs
  · exact ⟨spawnPipes_length _ _, spawnPipes_map_id _ _, fun k hk hk2 =>
      spawnPipes_get s.nextPipeId (tickDue s dt) k hk hk2⟩
  · exact fun p => mem_tickPipes s dt p

/-- C5, witness at `sC3`: the tick advances `nextPipeId` by the number
of due rows. -/
theorem c5_witness :
    (stepReducer (2 / 125) (1 / 2) sC3).nextPipeId =
      sC3.nextPipeId + (tickDue sC3 (2 / 125)).length :=
  (c5_spawn_move_cull sC3 (2 / 125) (1 / 2) rfl rfl).2.2.2.2.2

/-! ## Scoring helper lemmas -/

theorem runStepBody_scoredIds (dt r : Rat) (s : State) :
    (runStepBody dt r s).scoredIds = s.scoredIds ++ newlyPassed s dt := by
  show (if (newlyPassed s dt).length ≠ 0 then s.scoredIds ++ newlyPassed s dt
        else s.scoredIds) = _
  by_cases h : (newlyPassed s dt).length ≠ 0
  · rw [if_pos h]
  · rw [if_neg h]
    have hnil : newlyPassed s dt = [] := List.length_eq_zero.mp (not_ne_iff.mp h)
    rw [hnil, List.append_nil]

theorem tickPipes_ids_nodup (s : State) (dt : Rat)
    (hnd : (s.pipes.map Pipe.id).Nodup)
    (hid : ∀ p ∈ s.pipes, p.id < s.nextPipeId) :
    ((tickPipes s dt).map Pipe.id).Nodup := by
  have hcomp : ((s.pipes ++ tickSpawned s dt).map (movePipe dt)).map Pipe.id
      = (s.pipes ++ tickSpawned s dt).map Pipe.id := by
    rw [List.map_map]; rfl
  have happ : ((s.pipes ++ tickSpawned s dt).map Pipe.id).Nodup := by
    rw [List.map_append, List.nodup_append]
    refine ⟨hnd, ?_, ?_⟩
    · rw [tickSpawned, spawnPipes_map_id]
      exact List.nodup_range' _ _
    · intro a ha hb
      rcases List.mem_map.mp ha with ⟨p, hp, rfl⟩
      rw [tickSpawned, spawnPipes_map_id] at hb
      rcases List.mem_range'_1.mp hb with ⟨hge, _⟩
      exact absurd (hid p hp) (not_lt.mpr hge)
  have hsub : ((tickPipes s dt).map Pipe.id).Sublist
      (((s.pipes ++ tickSpawned s dt).map (movePipe dt)).map Pipe.id) :=
    List.Sublist.map _ (List.filter_sublist _)
  rw [hcomp] at hsub
  exact List.Nodup.sublist hsub happ

theorem scoredIds_mono_event (defs : List PipeDef) (e : GEvent) (s : State)
    (he : e ≠ GEvent.reset) : ∀ i ∈ s.scoredIds, i ∈ (applyEvent defs e s).scoredIds := by
  intro i hi
  cases e with
  | reset => exact absurd rfl he
  | start => exact hi
  | flap =>
    show i ∈ (flapReducer s).scoredIds
    unfold flapReducer
    split
    · exact hi
    · exact hi
  | ghost fl j => exact hi
  | tick dt r =>
    show i ∈ (stepReducer dt r s).scoredIds
    unfold stepReducer
    split
    · exact hi
    · split
      · exact hi
      · rw [runStepBody_scoredIds]
        exact List.mem_append_left _ hi

theorem scoredIds_mono_events (defs : List PipeDef) (evs : List GEvent) :
    ∀ s : State, (∀ e ∈ evs, e ≠ GEvent.reset) →
      ∀ i ∈ s.scoredIds, i ∈ (applyEvents defs evs s).scoredIds := by
  induction evs with
  | nil => intro s _ i hi; exact hi
  | cons e evs ih =>
    intro s he i hi
    show i ∈ (applyEvents defs evs (applyEvent defs e s)).scoredIds
    exact ih (applyEvent defs e s) (fun x hx => he x (List.mem_cons_of_mem _ hx))
      i (scoredIds_mono_event defs e s (he e (List.mem_cons_self _ _)) i hi)

/-! ## Claim C3 -/

/-- C3.  On a started, non-ended tick of a state whose live pipes have
pairwise distinct ids below `nextPipeId` (the reachable-state invariant
of C9): the score grows by exactly the number of newly passed pipes; the
scored-id set becomes the old one extended by exactly those ids; every
live pipe whose trailing edge is strictly left of the bird's right edge
and whose id is not yet scored is counted exactly once and its id enters
`scoredIds`; an already scored id is never counted again and stays in
`scoredIds`; and through any further run events (tick, flap, start,
ghost — anything but a reset) a scored id remains scored, so a given id
can never contribute to the score twice within a run. -/
theorem c3_score_idempotent (defs : List PipeDef) (s : State) (dt r : Rat)
    (h1 : s.started = true) (h2 : s.gameEnd = false)
    (hnd : (s.pipes.map Pipe.id).Nodup)
    (hid : ∀ p ∈ s.pipes, p.id < s.nextPipeId) :
    (stepReducer dt r s).score = s.score + (newlyPassed s dt).length ∧
    (stepReducer dt r s).scoredIds = s.scoredIds ++ newlyPassed s dt ∧
    (∀ p ∈ (stepReducer dt r s).pipes,
      p.x + PIPE_WIDTH < birdX + BIRB_WIDTH → p.id ∉ s.scoredIds →
        (newlyPassed s dt).count p.id = 1 ∧ p.id ∈ (stepReducer dt r s).scoredIds) ∧
    (∀ i ∈ s.scoredIds, i ∉ newlyPassed s dt ∧ i ∈ (stepReducer dt r s).scoredIds) ∧
    (∀ evs : List GEvent, (∀ e ∈ evs, e ≠ GEvent.reset) →
      ∀ i ∈ s.scoredIds, i ∈ (applyEvents defs evs s).scoredIds) := by
  rw [stepReducer_run dt r s h1 h2]
  refine ⟨rfl, runStepBody_scoredIds dt r s, ?_, ?_, ?_⟩
  · intro p hp hx hns
    have hp' : p ∈ tickPipes s dt := hp
    have hmemf : p ∈ (tickPipes s dt).filter
        (fun p => decide (p.x + PIPE_WIDTH < birdX + BIRB_WIDTH) &&
          !(s.scoredIds.contains p.id)) := by
      rw [List.mem_filter]
      refine ⟨hp', ?_⟩
      simp [hx, hns]
    have hidmem : p.id ∈ newlyPassed s dt := List.mem_map.mpr ⟨p, hmemf, rfl⟩
    have hnodup : (newlyPassed s dt).Nodup := by
      have hsub : (newlyPassed s dt).Sublist ((tickPipes s dt).map Pipe.id) :=
        List.Sublist.map _ (List.filter_sublist _)
      exact List.Nodup.sublist hsub (tickPipes_ids_nodup s dt hnd hid)
    refine ⟨List.count_eq_one_of_mem hnodup hidmem, ?_⟩
    rw [runStepBody_scoredIds]
    exact List.mem_append_right _ hidmem
  · intro i hi
    constructor
    · intro hmem
      rcases List.mem_map.mp hmem with ⟨p, hpf, hpid⟩
      have hfp := List.of_mem_filter hpf
      rw [Bool.and_eq_true] at hfp
      have h2m := hfp.2
      simp only [Bool.not_eq_true'] at h2m
      have hnotmem : p.id ∉ s.scoredIds := by simpa using h2m
      exact hnotmem (hpid ▸ hi)
    · rw [runStepBody_scoredIds]
      exact List.mem_append_left _ hi
  · exact fun evs he i hi => scoredIds_mono_events defs evs s he i hi

/-- C3, witness at `sC3`: the passed pipe's id is appended to
`scoredIds` and its score contribution is exactly one. -/
theorem c3_witness :
    (stepReducer (2 / 125) (1 / 2) sC3).scoredIds =
      sC3.scoredIds ++ newlyPassed sC3 (2 / 125) :=
  (c3_score_idempotent [] sC3 (2 / 125) (1 / 2) rfl rfl (by simp [sC3])
    (by intro p hp; simp [sC3] at hp; simp [hp, sC3])).2.1

/-! ## Pipe-id invariant helper lemmas -/

theorem spawnPipes_pairwise (n : Nat) (l : List PipeDef) :
    List.Pairwise (fun p q : Pipe => p.id < q.id) (spawnPipes n l) := by
  induction l generalizing n with
  | nil => exact List.Pairwise.nil
  | cons d l ih =>
    refine List.pairwise_cons.mpr ⟨?_, ih (n + 1)⟩
    intro q hq
    have h := (spawnPipes_id_bounds (n + 1) l q hq).1
    show n < q.id
    omega

theorem pipes_inv_event (defs : List PipeDef) (e : GEvent) (s : State)
    (hb : ∀ p ∈ s.pipes, p.id < s.nextPipeId)
    (hs : List.Pairwise (fun p q : Pipe => p.id < q.id) s.pipes) :
    (∀ p ∈ (applyEvent defs e s).pipes, p.id < (applyEvent defs e s).nextPipeId) ∧
    List.Pairwise (fun p q : Pipe => p.id < q.id) (applyEvent defs e s).pipes := by
  cases e with
  | reset =>
    constructor
    · intro p hp
      simp [applyEvent, resetReducer, initialState] at hp
    · simp [applyEvent, resetReducer, initialState]
  | start => exact ⟨hb, hs⟩
  | flap =>
    show (∀ p ∈ (flapReducer s).pipes, p.id < (flapReducer s).nextPipeId) ∧
      List.Pairwise (fun p q : Pipe => p.id < q.id) (flapReducer s).pipes
    unfold flapReducer
    split
    · exact ⟨hb, hs⟩
    · exact ⟨hb, hs⟩
  | ghost fl i => exact ⟨hb, hs⟩
  | tick dt r =>
    show (∀ p ∈ (stepReducer dt r s).pipes, p.id < (stepReducer dt r s).nextPipeId) ∧
      List.Pairwise (fun p q : Pipe => p.id < q.id) (stepReducer dt r s).pipes
    unfold stepReducer
    split
    · exact ⟨hb, hs⟩
    · split
      · exact ⟨hb, hs⟩
      · constructor
        · intro p hp
          show p.id < s.nextPipeId + (tickDue s dt).length
          have hp' : p ∈ tickPipes s dt := hp
          rcases (mem_tickPipes s dt p).mp hp' with ⟨⟨q, hq, rfl⟩, _⟩
          rcases List.mem_append.mp hq with hq1 | hq2
          · exact lt_of_lt_of_le (hb q hq1) (Nat.le_add_right _ _)
          · exact (spawnPipes_id_bounds s.nextPipeId (tickDue s dt) q hq2).2
        · have hall : List.Pairwise (fun p q : Pipe => p.id < q.id)
              (s.pipes ++ tickSpawned s dt) := by
            rw [List.pairwise_append]
            refine ⟨hs, spawnPipes_pairwise _ _, ?_⟩
            intro a ha b hbmem
            have h1 := hb a ha
            have h2 := (spawnPipes_id_bounds s.nextPipeId (tickDue s dt) b hbmem).1
            omega
          have hmap : List.Pairwise (fun p q : Pipe => p.id < q.id)
              ((s.pipes ++ tickSpawned s dt).map (movePipe dt)) := by
            rw [List.pairwise_map]
            exact hall
          exact List.Pairwise.sublist (List.filter_sublist _) hmap

theorem pipes_inv_events (defs : List PipeDef) (evs : List GEvent) :
    ∀ s : State, (∀ p ∈ s.pipes, p.id < s.nextPipeId) →
      List.Pairwise (fun p q : Pipe => p.id < q.id) s.pipes →
      (∀ p ∈ (applyEvents defs evs s).pipes,
        p.id < (applyEvents defs evs s).nextPipeId) ∧
      List.Pairwise (fun p q : Pipe => p.id < q.id) (applyEvents defs evs s).pipes := by
  induction evs with
  | nil => intro s hb hs; exact ⟨hb, hs⟩
  | cons e evs ih =>
    intro s hb hs
    have h1 := pipes_inv_event defs e s hb hs
    exact ih (applyEvent defs e s) h1.1 h1.2

/-! ## Claim C9 -/

/-- C9.  In every state reachable from the initial state by any
sequence of reset, start, flap, tick and ghost reducer applications,
every live pipe's id is strictly below `nextPipeId`, and the live pipes
are strictly increasing in id along the list — in particular their ids
are pairwise distinct and ordered by spawn order. -/
theorem c9_pipe_id_invariant (defs : List PipeDef) (evs : List GEvent) :
    (∀ p ∈ (applyEvents defs evs initialState).pipes,
      p.id < (applyEvents defs evs initialState).nextPipeId) ∧
    List.Pairwise (fun p q : Pipe => p.id < q.id)
      (applyEvents defs evs initialState).pipes := by
  refine pipes_inv_events defs evs initialState ?_ ?_
  · intro p hp
    simp [initialState] at hp
  · simp [initialState]

/-- C9, witness: the invariant instantiated on a concrete short run. -/
theorem c9_witness :
    List.Pairwise (fun p q : Pipe => p.id < q.id)
      (applyEvents [] [GEvent.reset, GEvent.start, GEvent.tick (2 / 125) (1 / 2)]
        initialState).pipes :=
  (c9_pipe_id_invariant []
    [GEvent.reset, GEvent.start, GEvent.tick (2 / 125) (1 / 2)]).2

/-! ## Ghost-overlay helper lemmas -/

theorem ghostYs_empty_event (defs : List PipeDef) (e : GEvent) (s : State)
    (hg : s.ghostYs = []) (he : ∀ fl i, e = GEvent.ghost fl i → fl = []) :
    (applyEvent defs e s).ghostYs = [] := by
  cases e with
  | reset => rfl
  | start => exact hg
  | flap =>
    show (flapReducer s).ghostYs = []
    unfold flapReducer
    split
    · exact hg
    · exact hg
  | tick dt r =>
    show (stepReducer dt r s).ghostYs = []
    unfold stepReducer
    split
    · exact hg
    · split
      · exact hg
      · exact hg
  | ghost fl i =>
    have hfl : fl = [] := he fl i rfl
    subst hfl
    rfl

theorem ghostYs_empty_events (defs : List PipeDef) (evs : List GEvent) :
    ∀ s : State, s.ghostYs = [] →
      (∀ fl i, GEvent.ghost fl i ∈ evs → fl = []) →
      (applyEvents defs evs s).ghostYs = [] := by
  induction evs with
  | nil => intro s hg _; exact hg
  | cons e evs ih =>
    intro s hg he
    show (applyEvents defs evs (applyEvent defs e s)).ghostYs = []
    refine ih (applyEvent defs e s) ?_ ?_
    · exact ghostYs_empty_event defs e s hg
        (fun fl i hei => he fl i (hei ▸ List.mem_cons_self _ _))
    · exact fun fl i hmem => he fl i (List.mem_cons_of_mem _ hmem)

/-! ## Claim C7 -/

/-- C7.  The ghost playback reducer at run tick `i` over the snapshot
`fl` of `N` recordings produces exactly `N` overlay samples; the `k`-th
sample is `fl[k][min i (len(fl[k]) - 1)]`, and once `i` has reached a
recording's length the sample is that recording's last element
(hold-on-exhaustion).  Moreover, if the snapshot of a run is empty then
every reducer of that run — reset, start, flap, tick and the (empty)
ghost reducers — keeps `ghostYs` empty forever. -/
theorem c7_ghost_playback :
    (∀ (fl : List (List Rat)) (i : Nat) (s : State),
      (ghostReducer fl i s).ghostYs.length = fl.length ∧
      ∀ (k : Nat) (hk : k < fl.length)
        (hk2 : k < (ghostReducer fl i s).ghostYs.length),
        (ghostReducer fl i s).ghostYs.get ⟨k, hk2⟩ =
          (fl.get ⟨k, hk⟩).getD (min i ((fl.get ⟨k, hk⟩).length - 1)) 0 ∧
        ((fl.get ⟨k, hk⟩).length ≤ i → ∀ hne : fl.get ⟨k, hk⟩ ≠ [],
          (ghostReducer fl i s).ghostYs.get ⟨k, hk2⟩ =
            (fl.get ⟨k, hk⟩).getLast hne)) ∧
    (∀ (defs : List PipeDef) (evs : List GEvent) (s : State),
      s.ghostYs = [] →
      (∀ fl i, GEvent.ghost fl i ∈ evs → fl = []) →
      (applyEvents defs evs s).ghostYs = []) := by
  constructor
  · intro fl i s
    constructor
    · simp [ghostReducer, ghostYsAt]
    · intro k hk hk2
      have hget : (ghostReducer fl i s).ghostYs.get ⟨k, hk2⟩ =
          (fl.get ⟨k, hk⟩).getD (min i ((fl.get ⟨k, hk⟩).length - 1)) 0 := by
        have hys : (ghostReducer fl i s).ghostYs =
            fl.map (fun fr => fr.getD (min i (fr.length - 1)) 0) := rfl
        rw [List.get_of_eq hys ⟨k, hk2⟩, List.get_map]
      refine ⟨hget, ?_⟩
      intro hle hne
      rw [hget]
      have hlen : 0 < (fl.get ⟨k, hk⟩).length := List.length_pos.mpr hne
      have hmin : min i ((fl.get ⟨k, hk⟩).length - 1) =
          (fl.get ⟨k, hk⟩).length - 1 := min_eq_right (by omega)
      rw [hmin, List.getD_eq_get _ _ (by omega), List.getLast_eq_get]
  · exact fun defs evs s hg he => ghostYs_empty_events defs evs s hg he

/-- C7, witness: two snapshot recordings of lengths 2 and 1, queried at
run tick 5; the second (exhausted) ghost holds its last sample. -/
theorem c7_witness :
    (ghostReducer [[(1 : Rat), 2], [3]] 5 initialState).ghostYs.length = 2 ∧
    (ghostReducer [[(1 : Rat), 2], [3]] 5 initialState).ghostYs.getD 1 0 = 3 := by
  have h := c7_ghost_playback.1 [[(1 : Rat), 2], [3]] 5 initialState
  refine ⟨h.1, ?_⟩
  have hk2 : 1 < (ghostReducer [[(1 : Rat), 2], [3]] 5 initialState).ghostYs.length := by
    rw [h.1]; norm_num
  have h2 := (h.2 1 (by norm_num) hk2).2 (by simp) (by simp)
  rw [List.getD_eq_get _ _ hk2, h2]
  rfl

/-! ## Parser helper lemmas -/

/-- The gap clamp `Math.max(lo, Math.min(hi, x))`: NaN propagates, and a
finite result lies in `[lo, hi]`. -/
theorem jsMaxMin_cases (lo hi : Rat) (h : lo ≤ hi) (x : JsNum) :
    jsMaxFin lo (jsMinFin hi x) = JsNum.nan ∨
    ∃ q, jsMaxFin lo (jsMinFin hi x) = JsNum.fin q ∧ lo ≤ q ∧ q ≤ hi := by
  cases x with
  | nan => left; rfl
  | posInf => right; exact ⟨max lo hi, rfl, le_max_left _ _, max_le h (le_refl _)⟩
  | negInf => right; exact ⟨lo, rfl, le_refl _, h⟩
  | fin q =>
    right
    exact ⟨max lo (min hi q), rfl, le_max_left _ _,
      max_le h (min_le_left _ _)⟩

/-! ## Claim C8 -/

/-- C8, counterexample.  The row `abc,0.5,1` does not parse to finite
numbers (its gap-centre cell converts to NaN), yet `parsePipes` keeps
it: the output has one row, carrying `gapYpx = NaN`; moreover its
`gapHpx` is `0.5 * 400 + 30 = 230` — the fixed 30-pixel gap widening —
and not the claimed plain fraction conversion `0.5 * 400 = 200`. -/
theorem c8_nan_row_kept_cex :
    (parsePipes csvC8.data).length = 1 ∧
    (parsePipes csvC8.data).map (fun d => d.gapYpx) = [JsNum.nan] ∧
    (parsePipes csvC8.data).map (fun d => jsFinite d.gapYpx) = [false] ∧
    (parsePipes csvC8.data).map (fun d => d.time) = [JsNum.fin 1] ∧
    (parsePipes csvC8.data).map (fun d => d.gapHpx) = [JsNum.fin 230] ∧
    JsNum.fin (230 : Rat) ≠ JsNum.fin ((1 / 2) * CANVAS_HEIGHT) := by
  refine ⟨rfl, rfl, rfl, ?_, ?_, ?_⟩
  · have h : (parsePipes csvC8.data).map (fun d => d.time) =
        [JsNum.fin (((1 : Nat) : Rat))] := rfl
    rw [h]
    norm_num
  · have h : (parsePipes csvC8.data).map (fun d => d.gapHpx) =
        [JsNum.fin (max 10 (min 400
          ((((0 : Nat) : Rat) + ((5 : Nat) : Rat) / 10 ^ 1) * 400 + 30)))] := rfl
    rw [h]
    norm_num
  · intro h
    rw [JsNum.fin.injEq] at h
    norm_num [CANVAS_HEIGHT] at h

/-- C8, amended.  `parsePipes` keeps exactly the body rows whose
converted trigger time is finite — a row with non-numeric gap cells but
finite time is kept, its gap pixels being NaN — and returns them sorted
ascending by trigger time (a permutation of the kept rows); an optional
case-insensitive `gap_y, gap_height, time` header line is skipped; the
gap-centre conversion `gy*400` is clamped to `[0, 400]` and the
gap-height conversion `gh*400 + 30` (the 30 px `PIPE_GAP_TWEAK`
widening) is clamped to `[10, 400]`, NaN propagating in both. -/
theorem c8_parser_amended (csv : List Char) :
    (∀ d ∈ parsePipes csv, jsFinite d.time = true) ∧
    List.Sorted rowLe (parsePipes csv) ∧
    (parsePipes csv).Perm
      (((bodyLines csv).map convRow).filter (fun d => jsFinite d.time)) ∧
    (∀ l0 rest, csvLines csv = l0 :: rest → headerMatch l0 = true →
      bodyLines csv = rest) ∧
    (∀ line, (convRow line).gapYpx = JsNum.nan ∨
      ∃ q, (convRow line).gapYpx = JsNum.fin q ∧ 0 ≤ q ∧ q ≤ 400) ∧
    (∀ line, (convRow line).gapHpx = JsNum.nan ∨
      ∃ q, (convRow line).gapHpx = JsNum.fin q ∧ 10 ≤ q ∧ q ≤ 400) := by
  refine ⟨?_, List.sorted_insertionSort rowLe _, List.perm_insertionSort rowLe _,
    ?_, ?_, ?_⟩
  · intro d hd
    have hmem : d ∈ ((bodyLines csv).map convRow).filter (fun d => jsFinite d.time) :=
      (List.perm_insertionSort rowLe _).mem_iff.mp hd
    exact @List.of_mem_filter _ (fun d => jsFinite d.time) d _ hmem
  · intro l0 rest hcl hh
    unfold bodyLines
    rw [hcl]
    simp [hh]
  · intro line
    exact jsMaxMin_cases 0 400 (by norm_num) _
  · intro line
    exact jsMaxMin_cases 10 400 (by norm_num) _

/-- C8, witness for the amended theorem: a two-row schedule given out of
order comes back sorted by trigger time, every kept row has finite
time. -/
theorem c8_amended_witness :
    List.Sorted rowLe (parsePipes csvC8.data) ∧
    (∀ d ∈ parsePipes csvC8.data, jsFinite d.time = true) :=
  ⟨(c8_parser_amended csvC8.data).2.1, (c8_parser_amended csvC8.data).1⟩

end Flappy
